import Mathlib

set_option maxRecDepth 8000

/-!
Shallow embedding of the copyright verification module of `src/content.js`
(the Uzei copyright protection browser extension).  The pure string
manipulation is translated directly; the chrome local storage area is
modelled as an explicit association list, wall-clock time as a natural
number of milliseconds, and the single outbound Unpaywall request of one
`queryUnpaywall` call as an explicit response value.  Every function keeps
the name it has in the source where Lean allows it.
-/

/-- JavaScript truthiness of a nullable string: null, undefined and the
empty string are falsy. -/
def truthy : Option String → Bool
  | none => false
  | some s => !(s == "")

/-- String interpolation of a nullable value: JavaScript renders an
undefined value as the text undefined. -/
def jsStr : Option String → String
  | none => "undefined"
  | some s => s

/-- JavaScript or-else on a nullable string (the double-bar operator with a
string default). -/
def jsOr (o : Option String) (d : String) : String :=
  match o with
  | none => d
  | some s => if s = "" then d else s

/-- Lowercasing of every character, the model of toLowerCase on the ASCII
domain strings the extension handles. -/
def strLower (s : String) : String := ⟨s.data.map Char.toLower⟩

/-- Containment of a contiguous character sublist. -/
def listSub (needle : List Char) : List Char → Bool
  | [] => needle.isEmpty
  | c :: cs => needle.isPrefixOf (c :: cs) || listSub needle cs

/-- Model of String.prototype.includes. -/
def jsIncludes (hay needle : String) : Bool := listSub needle.data hay.data

/-- Case-insensitive prefix test on character lists. -/
def startsWithCI : List Char → List Char → Bool
  | [], _ => true
  | _ :: _, [] => false
  | p :: ps, c :: cs => p.toLower == c.toLower && startsWithCI ps cs

/-- Model of String.prototype.startsWith (case sensitive). -/
def strStartsWith (s p : String) : Bool := p.data.isPrefixOf s.data

/-- Model of String.prototype.trim. -/
def strTrim (s : String) : String :=
  ⟨((s.data.dropWhile Char.isWhitespace).reverse.dropWhile Char.isWhitespace).reverse⟩

/-- The DOI normalization chain used throughout content.js: strip one
leading case-insensitive doi: label together with the whitespace after it,
then trim. -/
def cleanDoi (s : String) : String :=
  let l := s.data
  let l2 := if startsWithCI "doi:".data l then (l.drop 4).dropWhile Char.isWhitespace else l
  strTrim ⟨l2⟩

/-- Maximal leading run of ASCII digits together with the remainder, the
backbone of the digit quantifier of the DOI regular expressions. -/
def takeDigits : List Char → List Char × List Char
  | [] => ([], [])
  | c :: cs =>
    if c.isDigit then
      let r := takeDigits cs
      (c :: r.1, r.2)
    else ([], c :: cs)

/-- Anchored match of the DOI shape one-zero-dot, at least four digits,
slash.  Returns the matched prefix (slash included) and the rest.  The
greedy digit quantifier followed by a required slash is equivalent to the
maximal digit run followed by a slash, because a slash is not a digit. -/
def parseDOIAt (l : List Char) : Option (List Char × List Char) :=
  match l with
  | '1' :: '0' :: '.' :: rest =>
    if 4 ≤ (takeDigits rest).1.length then
      match (takeDigits rest).2 with
      | '/' :: rest3 => some ('1' :: '0' :: '.' :: ((takeDigits rest).1 ++ ['/']), rest3)
      | _ => none
    else none
  | _ => none

/-- The validation test of content.js, the anchored regular expression
ten dot four-or-more-digits slash. -/
def testDOIPattern (s : String) : Bool := (parseDOIAt s.data).isSome

/-- Normalized open access status record produced by queryUnpaywall
(content.js lines 1296-1368). -/
structure OARecord where
  doi : Option String := none
  is_oa : Bool := false
  oa_status : Option String := none
  oa_url : Option String := none
  host_type : Option String := none
  version : Option String := none
  license : Option String := none
  error : Option String := none
deriving Repr, DecidableEq

/-- Entry of the persistent OA cache: the record plus the write time. -/
structure CacheEntry where
  data : OARecord
  timestamp : Nat
deriving Repr, DecidableEq

/-- The chrome local storage area, modelled as an association list from
keys to cache entries. -/
abbrev Store := List (String × CacheEntry)

/-- First entry stored under a key. -/
def lookupStore (k : String) : Store → Option CacheEntry
  | [] => none
  | p :: rest => if p.1 = k then some p.2 else lookupStore k rest

/-- Removal of every entry stored under a key. -/
def eraseStore (k : String) (s : Store) : Store :=
  s.filter (fun p => !(p.1 == k))

/-- Upsert of a key, the model of a storage set call. -/
def insertStore (k : String) (v : CacheEntry) (s : Store) : Store :=
  (k, v) :: eraseStore k s

/-- Cache validity window of COPYRIGHT_CONFIG: thirty days in
milliseconds. -/
def CACHE_DURATION : Nat := 30 * 24 * 60 * 60 * 1000

/-- Parsed best_oa_location object of an Unpaywall response body. -/
structure BestLoc where
  url : Option String := none
  host_type : Option String := none
  version : Option String := none
  license : Option String := none
deriving Repr, DecidableEq

/-- Parsed JSON body of an Unpaywall response. -/
structure UnpaywallBody where
  doi : Option String := none
  is_oa : Option Bool := none
  oa_status : Option String := none
  best_oa_location : Option BestLoc := none
deriving Repr, DecidableEq

/-- Outcome of the single fetch a queryUnpaywall call issues: an abort by
the ten second timer, a network rejection with a message, or an HTTP
response carrying a status and a parsed body. -/
inductive NetResult where
  | timeout
  | netError (msg : String)
  | http (status : Nat) (body : UnpaywallBody)
deriving Repr, DecidableEq

/-- getCachedOAStatus of content.js: read the entry stored under the raw
DOI, deleting it on the way when it is older than the validity window.
Returns the record found (if any) together with the storage area after the
read. -/
def getCachedOAStatus (doi : String) (now : Nat) (store : Store) :
    Option OARecord × Store :=
  if doi = "" then (none, store)
  else
    let key := "oa_cache_" ++ doi
    match lookupStore key store with
    | none => (none, store)
    | some e =>
      if now - e.timestamp < CACHE_DURATION then (some e.data, store)
      else (none, eraseStore key store)

/-- cacheOAStatus of content.js: store a record under the given DOI with
the current time, doing nothing for a falsy DOI. -/
def cacheOAStatus (doi : String) (r : OARecord) (now : Nat) (store : Store) : Store :=
  if doi = "" then store else insertStore ("oa_cache_" ++ doi) ⟨r, now⟩ store

/-- Record mapping of a successful Unpaywall response (content.js lines
1342-1350): is_oa defaults to false, the best location fields stay absent
when the response has none. -/
def mkRecord (b : UnpaywallBody) : OARecord :=
  { doi := b.doi
    is_oa := b.is_oa.getD false
    oa_status := b.oa_status
    oa_url := b.best_oa_location.bind (fun x => x.url)
    host_type := b.best_oa_location.bind (fun x => x.host_type)
    version := b.best_oa_location.bind (fun x => x.version)
    license := b.best_oa_location.bind (fun x => x.license) }

/-- Record for a DOI the registry does not know (HTTP 404). -/
def notFoundRecord (d : String) : OARecord :=
  { is_oa := false, oa_status := some "not_found", doi := some d }

/-- Record returned when the registry call is aborted by the timer. -/
def timeoutRecord : OARecord :=
  { is_oa := false, error := some "Unpaywall API timeout" }

/-- Record returned when the fetch rejects with a network error. -/
def netErrorRecord (m : String) : OARecord :=
  { is_oa := false, error := some m }

/-- Record returned for a non-404 HTTP error status: the raised error is
caught by the local catch block of queryUnpaywall itself. -/
def httpErrorRecord (status : Nat) : OARecord :=
  { is_oa := false, error := some ("Unpaywall API error: " ++ toString status) }

/-- Record returned for a falsy DOI argument. -/
def noDoiRecord : OARecord :=
  { is_oa := false, error := some "No DOI provided" }

/-- queryUnpaywall of content.js (lines 1296-1368).  Returns the record,
the storage area afterwards, and how many registry requests were issued.
The cache is read under the raw DOI before any network activity; writes go
under the cleaned DOI. -/
def queryUnpaywall (doi : Option String) (now : Nat) (net : NetResult)
    (store : Store) : OARecord × Store × Nat :=
  if !(truthy doi) then (noDoiRecord, store, 0)
  else
    let d := jsStr doi
    let g := getCachedOAStatus d now store
    match g.1 with
    | some cached => (cached, g.2, 0)
    | none =>
      let cleanD := cleanDoi d
      match net with
      | NetResult.timeout => (timeoutRecord, g.2, 1)
      | NetResult.netError m => (netErrorRecord m, g.2, 1)
      | NetResult.http status body =>
        if 200 ≤ status ∧ status < 300 then
          let r := mkRecord body
          (r, cacheOAStatus cleanD r now g.2, 1)
        else if status = 404 then
          let r := notFoundRecord cleanD
          (r, cacheOAStatus cleanD r now g.2, 1)
        else (httpErrorRecord status, g.2, 1)

/-- The three flattened domain sets loaded from academic_dblist.json. -/
structure Databases where
  whitelist : List String
  blacklist : List String
  conditional : List String
deriving Repr, DecidableEq

/-- isWhitelisted of content.js: a falsy domain never matches; otherwise a
case-insensitive substring containment against the whitelist set. -/
def isWhitelisted (wl : List String) (domain : String) : Bool :=
  if domain = "" then false
  else wl.any (fun w => jsIncludes (strLower domain) (strLower w))

/-- isBlacklisted of content.js, same containment against the blacklist. -/
def isBlacklisted (bl : List String) (domain : String) : Bool :=
  if domain = "" then false
  else bl.any (fun w => jsIncludes (strLower domain) (strLower w))

/-- isConditional of content.js, same containment against the conditional
set. -/
def isConditional (cl : List String) (domain : String) : Bool :=
  if domain = "" then false
  else cl.any (fun w => jsIncludes (strLower domain) (strLower w))

/-- Case-insensitive test for the four characters dot-p-d-f at the head of
a list, the tail anchor of PDF path pattern one. -/
def startsPdfCI : List Char → Bool
  | '.' :: p :: d :: f :: _ => p.toLower == 'p' && d.toLower == 'd' && f.toLower == 'f'
  | _ => false

/-- Lazy body of PDF path pattern one: the shortest nonempty run of
non-whitespace characters followed by dot-pdf, mirroring the lazy one-plus
quantifier of the regular expression. -/
def lazyBodyToPdf : List Char → Option (List Char)
  | [] => none
  | c :: cs =>
    if c.isWhitespace then none
    else if startsPdfCI cs then some [c]
    else
      match lazyBodyToPdf cs with
      | some body => some (c :: body)
      | none => none

/-- PDF path pattern one of extractDOIFromPDFUrl: slash, one character of
the class one-zero, dot, four or more digits, slash, lazy non-whitespace
body, dot-pdf (case-insensitive).  The leading class matches a single
character, so a real DOI path slash-one-zero-dot never fires here. -/
def findP1 : List Char → Option String
  | [] => none
  | '/' :: c :: '.' :: rest =>
    if c = '1' ∨ c = '0' then
      let p := takeDigits rest
      if 4 ≤ p.1.length then
        match p.2 with
        | '/' :: rest3 =>
          match lazyBodyToPdf rest3 with
          | some body => some ⟨c :: '.' :: (p.1 ++ '/' :: body)⟩
          | none => findP1 (c :: '.' :: rest)
        | _ => findP1 (c :: '.' :: rest)
      else findP1 (c :: '.' :: rest)
    else findP1 (c :: '.' :: rest)
  | _ :: cs => findP1 cs

/-- PDF path pattern two of extractDOIFromPDFUrl (the publisher style
path): first occurrence anywhere of ten-dot-digits-slash followed by a
greedy nonempty run excluding whitespace and slashes. -/
def findP2 : List Char → Option String
  | [] => none
  | c :: cs =>
    match parseDOIAt (c :: cs) with
    | some (pre, rest) =>
      if 1 ≤ (rest.takeWhile (fun ch => !ch.isWhitespace && ch != '/')).length then
        some ⟨pre ++ rest.takeWhile (fun ch => !ch.isWhitespace && ch != '/')⟩
      else findP2 cs
    | none => findP2 cs

/-- PDF path pattern three of extractDOIFromPDFUrl: the arXiv PDF path,
case-insensitive, capturing digits-dot-digits after arxiv.org/pdf/. -/
def findP3 : List Char → Option String
  | [] => none
  | c :: cs =>
    if startsWithCI "arxiv.org/pdf/".data (c :: cs) then
      let rest := (c :: cs).drop 14
      let p1 := takeDigits rest
      if 1 ≤ p1.1.length then
        match p1.2 with
        | '.' :: r2 =>
          let p2 := takeDigits r2
          if 1 ≤ p2.1.length then some ⟨p1.1 ++ '.' :: p2.1⟩ else findP3 cs
        | _ => findP3 cs
      else findP3 cs
    else findP3 cs

/-- Character list before the first occurrence of a separator. -/
def beforeChar (c : Char) (l : List Char) : List Char :=
  l.takeWhile (fun x => x != c)

/-- Character list after the first occurrence of a separator, when the
separator occurs at all. -/
def afterFirstChar (c : Char) : List Char → Option (List Char)
  | [] => none
  | x :: xs => if x = c then some xs else afterFirstChar c xs

/-- Splitting on a separator character. -/
def splitOnCharAux (c : Char) (cur : List Char) : List Char → List (List Char)
  | [] => [cur.reverse]
  | x :: xs =>
    if x = c then cur.reverse :: splitOnCharAux c [] xs
    else splitOnCharAux c (x :: cur) xs

/-- Splitting on a separator character, top entry point. -/
def splitOnChar (c : Char) (l : List Char) : List (List Char) :=
  splitOnCharAux c [] l

/-- Hexadecimal digit value. -/
def hexVal (c : Char) : Option Nat :=
  if '0' ≤ c ∧ c ≤ '9' then some (c.toNat - '0'.toNat)
  else if 'a' ≤ c ∧ c ≤ 'f' then some (c.toNat - 'a'.toNat + 10)
  else if 'A' ≤ c ∧ c ≤ 'F' then some (c.toNat - 'A'.toNat + 10)
  else none

/-- Model of the form-urlencoded decoding done by URLSearchParams: plus
becomes space and a percent escape becomes its code point. -/
def pctDecode : List Char → List Char
  | '%' :: a :: b :: rest =>
    match hexVal a, hexVal b with
    | some x, some y => Char.ofNat (16 * x + y) :: pctDecode rest
    | _, _ => '%' :: pctDecode (a :: b :: rest)
  | '+' :: rest => ' ' :: pctDecode rest
  | c :: rest => c :: pctDecode rest
  | [] => []

/-- Query component of a URL string: the part after the first question
mark, fragment excluded.  Model of the platform URL builtin. -/
def queryOf (u : List Char) : List Char :=
  match afterFirstChar '?' (beforeChar '#' u) with
  | some q => q
  | none => []

/-- Walk over the query pairs looking for the doi key. -/
def getDoiParamAux : List (List Char) → Option String
  | [] => none
  | p :: ps =>
    let key := pctDecode (beforeChar '=' p)
    if key = "doi".data then
      let v := match afterFirstChar '=' p with
        | some v => v
        | none => []
      some ⟨pctDecode v⟩
    else getDoiParamAux ps

/-- Model of new URL u followed by searchParams.get of the doi key. -/
def getDoiParam (u : List Char) : Option String :=
  getDoiParamAux (splitOnChar '&' (queryOf u))

/-- Whether the URL constructor accepts the string, simplified to the http
and https schemes the extension handles.  Model of the platform builtin. -/
def isHttpAbs (u : String) : Bool :=
  startsWithCI "http://".data u.data || startsWithCI "https://".data u.data

/-- extractDOIFromPDFUrl of content.js (lines 1202-1240): four URL
patterns in order, none of which re-validates its candidate against the
anchored DOI pattern.  An invalid URL makes the query-parameter step throw
inside the local try block, which returns null. -/
def extractDOIFromPDFUrl (url : Option String) : Option String :=
  match url with
  | none => none
  | some u =>
    if u = "" then none
    else
      match findP1 u.data with
      | some d => some d
      | none =>
        match findP2 u.data with
        | some d => some d
        | none =>
          match findP3 u.data with
          | some id => some ("10.48550/arXiv." ++ id)
          | none =>
            if isHttpAbs u then
              match getDoiParam u.data with
              | some p => if p = "" then none else some p
              | none => none
            else none

/-- Page metadata tuple consumed by checkCopyright. -/
structure PageData where
  url : Option String := none
  domain : Option String := none
  doi : Option String := none
  contentType : Option String := none
  isPDF : Bool := false
deriving Repr, DecidableEq

/-- Admission decision record returned by checkCopyright. -/
structure Decision where
  allowed : Bool
  reason : String
  category : String
  confidence : String
  warning : Option String := none
  suggestion : Option String := none
  oa_url : Option String := none
  oa_host : Option String := none
  doi : Option String := none
  oa_status : Option String := none
  error : Option String := none
deriving Repr, DecidableEq

/-- Hostname of an absolute http or https URL, lowercased.  Model of the
platform URL builtin hostname accessor, simplified to the two schemes the
extension handles. -/
def urlHostname (u : String) : Option String :=
  if startsWithCI "http://".data u.data then
    some (strLower ⟨(u.data.drop 7).takeWhile
      (fun c => c != '/' && c != '?' && c != '#' && c != ':')⟩)
  else if startsWithCI "https://".data u.data then
    some (strLower ⟨(u.data.drop 8).takeWhile
      (fun c => c != '/' && c != '?' && c != '#' && c != ':')⟩)
  else none

/-- Fallback of the domain computation: parse the hostname out of the page
URL; an unparsable URL raises, modelled as the error case. -/
def resolveFromUrl (pd : PageData) : Except String String :=
  match urlHostname (jsStr pd.url) with
  | some h => Except.ok h
  | none => Except.error "Invalid URL"

/-- The domain computation of checkCopyright: the metadata domain when
truthy, else the hostname of the URL (which can throw). -/
def resolveDomain (pd : PageData) : Except String String :=
  match pd.domain with
  | some d => if d = "" then resolveFromUrl pd else Except.ok d
  | none => resolveFromUrl pd

/-- The content-type disjunction of checkCopyright line 1383. -/
def isPdfOf (pd : PageData) : Bool :=
  pd.isPDF || pd.contentType == some "pdf"

/-- Terminal decision of the whitelist short-circuit. -/
def whitelistDecision : Decision :=
  { allowed := true
    reason := "Trusted open access source"
    category := "whitelist"
    confidence := "high" }

/-- Terminal decision for a blacklisted domain without a DOI. -/
def blacklistDecision : Decision :=
  { allowed := false
    reason := "Content from subscription database - cannot verify open access status without DOI"
    category := "blacklist"
    confidence := "high"
    suggestion := some "Try finding an open access version on preprint servers or institutional repositories" }

/-- Terminal decision for a PDF without a DOI from an unknown domain. -/
def unknownPdfDecision : Decision :=
  { allowed := false
    reason := "PDF from unknown source - cannot verify copyright status"
    category := "unknown_pdf"
    confidence := "medium"
    suggestion := some "Try accessing the article webpage instead of direct PDF, or check if available on open access repositories" }

/-- Terminal decision for an HTML page without a DOI from an unknown
domain: allowed, with a warning attached. -/
def unknownHtmlDecision : Decision :=
  { allowed := true
    reason := "Unknown source - could not verify copyright status"
    category := "unknown_html"
    confidence := "low"
    warning := some "Copyright status could not be verified. Please ensure you have the right to access this content." }

/-- Terminal decision when the registry query reported an error without an
open access flag. -/
def verificationFailedDecision (err : Option String) : Decision :=
  { allowed := false
    reason := "Could not verify open access status (" ++ jsStr err ++ ")"
    category := "verification_failed"
    confidence := "low"
    suggestion := some "Check your internet connection and try again, or verify the article is open access manually" }

/-- Base of the decision for a verified open access DOI. -/
def oaVerifiedBase (doi1 : Option String) (oa : OARecord) : Decision :=
  { allowed := true
    reason := "Open access confirmed (" ++ jsStr oa.oa_status ++ ")"
    category := "oa_verified"
    confidence := "high"
    oa_status := oa.oa_status
    doi := doi1 }

/-- Terminal decision for a verified open access DOI: the alternative
location fields are attached only when the resolver URL is truthy and
differs from the page URL. -/
def oaVerifiedDecision (url doi1 : Option String) (oa : OARecord) : Decision :=
  if truthy oa.oa_url ∧ oa.oa_url ≠ url then
    { oaVerifiedBase doi1 oa with
        oa_url := oa.oa_url
        oa_host := oa.host_type
        suggestion := some ("Open access version available at: " ++ jsStr oa.oa_url) }
  else oaVerifiedBase doi1 oa

/-- Terminal decision for a closed access DOI. -/
def paywalledDecision (doi1 : Option String) (oa : OARecord) : Decision :=
  { allowed := false
    reason := "Article is not openly accessible (status: " ++ jsOr oa.oa_status "paywalled" ++ ")"
    category := "paywalled"
    confidence := "high"
    doi := doi1
    suggestion := some "Check for preprint versions on arXiv.org, bioRxiv, or contact the author for a copy" }

/-- Terminal decision produced by the top-level catch block. -/
def mkErrorDecision (e : String) : Decision :=
  { allowed := false
    reason := "Copyright verification failed: " ++ e
    category := "error"
    confidence := "low"
    error := some e }

/-- The DOI of step two of checkCopyright: the metadata DOI, enriched
from the PDF URL when it is falsy and the page is a PDF. -/
def enrichedDoi (pd : PageData) : Option String :=
  if !(truthy pd.doi) && isPdfOf pd then extractDOIFromPDFUrl pd.url else pd.doi

/-- Steps four and five of checkCopyright: dispatch on the record the
registry query returned. -/
def checkAfterQuery (pd : PageData) (doi1 : Option String)
    (q : OARecord × Store × Nat) : Decision × Store × Nat :=
  if truthy q.1.error ∧ q.1.is_oa = false then
    (verificationFailedDecision q.1.error, q.2.1, q.2.2)
  else if q.1.is_oa then (oaVerifiedDecision pd.url doi1 q.1, q.2.1, q.2.2)
  else (paywalledDecision doi1 q.1, q.2.1, q.2.2)

/-- Body of checkCopyright after the domain has been resolved: the
short-circuit decision tree of content.js lines 1388-1493.  Returns the
decision, the storage area afterwards, and the number of registry
requests. -/
def checkCopyrightCore (db : Databases) (pd : PageData) (domain : String)
    (now : Nat) (net : NetResult) (store : Store) : Decision × Store × Nat :=
  if isWhitelisted db.whitelist domain then (whitelistDecision, store, 0)
  else if !(truthy (enrichedDoi pd)) then
    if isBlacklisted db.blacklist domain then (blacklistDecision, store, 0)
    else if isPdfOf pd then (unknownPdfDecision, store, 0)
    else (unknownHtmlDecision, store, 0)
  else checkAfterQuery pd (enrichedDoi pd) (queryUnpaywall (enrichedDoi pd) now net store)

/-- The body of the try block of checkCopyright: domain resolution is the
one step of the model that can raise.  The lazy dataset load of line 1377
is represented by taking the already loaded sets as an argument. -/
def checkCopyrightTry (db : Databases) (pd : PageData) (now : Nat)
    (net : NetResult) (store : Store) : Except String (Decision × Store × Nat) :=
  match resolveDomain pd with
  | Except.ok domain => Except.ok (checkCopyrightCore db pd domain now net store)
  | Except.error e => Except.error e

/-- checkCopyright of content.js (lines 1374-1507): the try body with the
top-level catch block that converts any raised error into the terminal
error decision. -/
def checkCopyright (db : Databases) (pd : PageData) (now : Nat)
    (net : NetResult) (store : Store) : Decision × Store × Nat :=
  match checkCopyrightTry db pd now net store with
  | Except.ok r => r
  | Except.error e => (mkErrorDecision e, store, 0)

/-- The identifier field of a JSON-LD object: either a plain string or an
object with value and at-value members. -/
inductive LdIdent where
  | str (s : String)
  | obj (value : Option String) (atValue : Option String)
deriving Repr, DecidableEq

/-- The members of a JSON-LD object that the structured-data strategy
reads. -/
structure LdObj where
  identifier : Option LdIdent := none
  doi : Option String := none
  atId : Option String := none
deriving Repr, DecidableEq

/-- One JSON-LD script element: a parse failure, a single object, or an
array of objects. -/
inductive LdData where
  | parseError
  | single (o : LdObj)
  | arr (items : List LdObj)
deriving Repr, DecidableEq

/-- Maximal nonempty run matching ten-dot-digits-slash then greedy
non-whitespace, the bare DOI regular expression used by the element and
identifier-URL strategies. -/
def findDOIAnywhere : List Char → Option String
  | [] => none
  | c :: cs =>
    match parseDOIAt (c :: cs) with
    | some (pre, rest) =>
      if 1 ≤ (rest.takeWhile (fun ch => !ch.isWhitespace)).length then
        some ⟨pre ++ rest.takeWhile (fun ch => !ch.isWhitespace)⟩
      else findDOIAnywhere cs
    | none => findDOIAnywhere cs

/-- Removal of a single trailing character from a given set, the model of
the replace calls with an end-anchored character class. -/
def stripLast (bad : List Char) (s : String) : String :=
  match s.data.getLast? with
  | some c => if bad.contains c then ⟨s.data.dropLast⟩ else s
  | none => s

/-- The nested helper extractDOIFromStructuredData of strategy two, tail
part: the doi member and the at-id member checks. -/
def ldExtractRest (o : LdObj) : Option String :=
  match o.doi with
  | some s =>
    if s = "" then
      match o.atId with
      | some idv =>
        if jsIncludes idv "doi.org" then findDOIAnywhere idv.data else none
      | none => none
    else some (cleanDoi s)
  | none =>
    match o.atId with
    | some idv =>
      if jsIncludes idv "doi.org" then findDOIAnywhere idv.data else none
    | none => none

/-- The nested helper extractDOIFromStructuredData of strategy two. -/
def ldExtract (o : LdObj) : Option String :=
  match o.identifier with
  | some (LdIdent.str s) =>
    if !(s == "") && strStartsWith s "10." then some s else ldExtractRest o
  | some (LdIdent.obj v av) =>
    if truthy v && strStartsWith (jsStr v) "10." then v
    else if truthy av && strStartsWith (jsStr av) "10." then av
    else ldExtractRest o
  | none => ldExtractRest o

/-- First truthy result of the per-item loop over a JSON-LD array. -/
def firstTruthy : List (Option String) → Option String
  | [] => none
  | r :: rs => if truthy r then r else firstTruthy rs

/-- Candidate DOI of one JSON-LD script element. -/
def ldCandidate : LdData → Option String
  | LdData.parseError => none
  | LdData.single o => ldExtract o
  | LdData.arr items => firstTruthy (items.map ldExtract)

/-- Meta tag strategy (strategies one and three): clean the content and
accept only when truthy and matching the anchored DOI pattern. -/
def metaStrategy (meta : Option String) : Option String :=
  match meta with
  | none => none
  | some content =>
    if content = "" then none
    else
      if !(cleanDoi content == "") && testDOIPattern (cleanDoi content) then
        some (cleanDoi content)
      else none

/-- JSON-LD strategy (strategy two): per script element take the
candidate and accept it only when truthy and matching the anchored DOI
pattern, otherwise continue with the next script. -/
def jsonLdStrategy : List LdData → Option String
  | [] => none
  | s :: ss =>
    match ldCandidate s with
    | some d =>
      if !(d == "") && testDOIPattern d then some d else jsonLdStrategy ss
    | none => jsonLdStrategy ss

/-- Element strategy (strategy four): the first DOI-shaped run in the
text of a DOI-labeled element, one trailing comma or semicolon removed. -/
def elementStrategy : List String → Option String
  | [] => none
  | t :: ts =>
    match findDOIAnywhere t.data with
    | some m => some (stripLast [',', ';'] m)
    | none => elementStrategy ts

/-- Link strategy (strategy five) scanner: a doi.org slash immediately
followed by the DOI-shaped capture. -/
def findDoiOrgLink : List Char → Option String
  | [] => none
  | c :: cs =>
    if "doi.org/".data.isPrefixOf (c :: cs) then
      match parseDOIAt ((c :: cs).drop 8) with
      | some (pre, rest) =>
        if 1 ≤ (rest.takeWhile (fun ch => !ch.isWhitespace)).length then
          some ⟨pre ++ rest.takeWhile (fun ch => !ch.isWhitespace)⟩
        else findDoiOrgLink cs
      | none => findDoiOrgLink cs
    else findDoiOrgLink cs

/-- Link strategy over the href values of the doi.org anchors. -/
def linkStrategy : List String → Option String
  | [] => none
  | h :: hs =>
    match findDoiOrgLink h.data with
    | some d => some d
    | none => linkStrategy hs

/-- Word character of the regular expression boundary class. -/
def isWordChar (c : Char) : Bool := c.isAlphanum || c = '_'

/-- Lazy separator run of the free-text strategy: one or more whitespace
or colon characters, shortest first, followed by the DOI capture whose
greedy tail excludes whitespace, commas and semicolons. -/
def labeledAfter : List Char → Option String
  | [] => none
  | c :: cs =>
    if c.isWhitespace || c = ':' then
      match parseDOIAt cs with
      | some (pre, rest) =>
        if 1 ≤ (rest.takeWhile (fun ch => !ch.isWhitespace && ch != ',' && ch != ';')).length then
          some ⟨pre ++ rest.takeWhile (fun ch => !ch.isWhitespace && ch != ',' && ch != ';')⟩
        else labeledAfter cs
      | none => labeledAfter cs
    else none

/-- Scan of the free-text strategy (strategy six): a word boundary, the
letters d-o-i case-insensitively, then the lazy separator run and the
capture. -/
def findLabeledDOIAux (atBoundary : Bool) : List Char → Option String
  | [] => none
  | c :: cs =>
    if atBoundary && startsWithCI "doi".data (c :: cs) then
      match labeledAfter ((c :: cs).drop 3) with
      | some d => some d
      | none => findLabeledDOIAux (!(isWordChar c)) cs
    else findLabeledDOIAux (!(isWordChar c)) cs

/-- Free-text strategy scan from the start of the body text. -/
def findLabeledDOI (l : List Char) : Option String := findLabeledDOIAux true l

/-- Free-text strategy (strategy six): one trailing comma, semicolon or
dot removed from the capture. -/
def textStrategy (bodyText : String) : Option String :=
  match findLabeledDOI bodyText.data with
  | some m => some (stripLast [',', ';', '.'] m)
  | none => none

/-- ArXiv strategy scanner: arxiv.org slash abs-or-pdf slash then
digits-dot-digits, case-insensitive. -/
def findArxivAbsPdf : List Char → Option String
  | [] => none
  | c :: cs =>
    if startsWithCI "arxiv.org/".data (c :: cs) then
      let rest := (c :: cs).drop 10
      if startsWithCI "abs/".data rest || startsWithCI "pdf/".data rest then
        let p1 := takeDigits (rest.drop 4)
        if 1 ≤ p1.1.length then
          match p1.2 with
          | '.' :: r2 =>
            let p2 := takeDigits r2
            if 1 ≤ p2.1.length then some ⟨p1.1 ++ '.' :: p2.1⟩ else findArxivAbsPdf cs
          | _ => findArxivAbsPdf cs
        else findArxivAbsPdf cs
      else findArxivAbsPdf cs
    else findArxivAbsPdf cs

/-- ArXiv strategy (strategy seven): the location URL first, then the
arXiv meta tag, each mapped to the synthetic DOI form. -/
def arxivStrategy (href : String) (arxivMeta : Option String) : Option String :=
  match findArxivAbsPdf href.data with
  | some id => some ("10.48550/arXiv." ++ id)
  | none =>
    match arxivMeta with
    | some content =>
      if content = "" then none else some ("10.48550/arXiv." ++ content)
    | none => none

/-- The document reads performed by extractDOINonDestructive, gathered
into one value: the meta contents, the parsed JSON-LD scripts, the texts
of the DOI-labeled elements, the doi.org anchor targets, the body text,
the location URL and the arXiv meta content. -/
structure PageDom where
  citationMeta : Option String := none
  jsonLd : List LdData := []
  prismMeta : Option String := none
  doiElementTexts : List String := []
  doiLinkHrefs : List String := []
  bodyText : String := ""
  locationHref : String := ""
  arxivMeta : Option String := none
deriving Repr, DecidableEq

/-- extractDOINonDestructive of content.js (lines 646-803): the seven
page strategies in order, first hit wins, null when all exhaust. -/
def extractDOINonDestructive (p : PageDom) : Option String :=
  match metaStrategy p.citationMeta with
  | some d => some d
  | none =>
    match jsonLdStrategy p.jsonLd with
    | some d => some d
    | none =>
      match metaStrategy p.prismMeta with
      | some d => some d
      | none =>
        match elementStrategy p.doiElementTexts with
        | some d => some d
        | none =>
          match linkStrategy p.doiLinkHrefs with
          | some d => some d
          | none =>
            match textStrategy p.bodyText with
            | some d => some d
            | none => arxivStrategy p.locationHref p.arxivMeta

/-- Shape of a prefix accepted by the anchored DOI parse: one, zero, dot,
at least four digits, slash. -/
def GoodPre (pre : List Char) : Prop :=
  ∃ ds, pre = '1' :: '0' :: '.' :: (ds ++ ['/']) ∧ 4 ≤ ds.length ∧ ∀ c ∈ ds, c.isDigit = true

theorem takeDigits_digits : ∀ l : List Char, ∀ c ∈ (takeDigits l).1, c.isDigit = true := by
  intro l
  induction l with
  | nil => intro c hc; simp [takeDigits] at hc
  | cons x xs ih =>
    intro c hc
    by_cases hx : x.isDigit
    · simp [takeDigits, hx] at hc
      rcases hc with hc | hc
      · simpa [hc] using hx
      · exact ih c hc
    · simp [takeDigits, hx] at hc

theorem takeDigits_append (ds r : List Char) (x : Char)
    (hds : ∀ c ∈ ds, c.isDigit = true) (hx : x.isDigit = false) :
    takeDigits (ds ++ x :: r) = (ds, x :: r) := by
  induction ds with
  | nil => simp [takeDigits, hx]
  | cons d ds ih =>
    have hd : d.isDigit = true := hds d (by simp)
    have ih2 := ih (fun c hc => hds c (by simp [hc]))
    simp [takeDigits, hd, ih2]

theorem takeDigits_eq_append : ∀ l : List Char, (takeDigits l).1 ++ (takeDigits l).2 = l := by
  intro l
  induction l with
  | nil => simp [takeDigits]
  | cons x xs ih =>
    by_cases hx : x.isDigit
    · simp [takeDigits, hx, ih]
    · simp [takeDigits, hx]

theorem parseDOIAt_goodPre {l pre rest : List Char}
    (h : parseDOIAt l = some (pre, rest)) : GoodPre pre ∧ l = pre ++ rest := by
  unfold parseDOIAt at h
  split at h
  · rename_i rest0
    split at h
    · rename_i hlen
      split at h
      · rename_i rest3 heq
        injection h with h1
        injection h1 with hpre hrest
        subst hpre
        subst hrest
        constructor
        · exact ⟨(takeDigits rest0).1, rfl, hlen, takeDigits_digits rest0⟩
        · have := takeDigits_eq_append rest0
          simp only [List.cons_append, List.append_assoc, List.singleton_append]
          rw [heq] at this
          simp [this]
      · exact absurd h (by simp)
    · exact absurd h (by simp)
  · exact absurd h (by simp)

theorem parseDOIAt_of_goodPre {pre : List Char} (h : GoodPre pre) (rest : List Char) :
    parseDOIAt (pre ++ rest) = some (pre, rest) := by
  obtain ⟨ds, hpre, hlen, hds⟩ := h
  subst hpre
  have hslash : ('/' : Char).isDigit = false := by decide
  have ht : takeDigits (ds ++ '/' :: rest) = (ds, '/' :: rest) :=
    takeDigits_append ds rest '/' hds hslash
  simp [parseDOIAt, ht, hlen]

theorem testDOIPattern_mk {pre : List Char} (h : GoodPre pre) (tail : List Char) :
    testDOIPattern ⟨pre ++ tail⟩ = true := by
  unfold testDOIPattern
  have : String.data ⟨pre ++ tail⟩ = pre ++ tail := rfl
  rw [this, parseDOIAt_of_goodPre h tail]
  rfl

theorem findDOIAnywhere_spec : ∀ l : List Char, ∀ m : String,
    findDOIAnywhere l = some m →
    ∃ pre tail, GoodPre pre ∧ tail ≠ [] ∧ m = ⟨pre ++ tail⟩ := by
  intro l
  induction l with
  | nil => intro m h; simp [findDOIAnywhere] at h
  | cons c cs ih =>
    intro m h
    rw [findDOIAnywhere] at h
    split at h
    · rename_i pre rest hp
      split at h
      · rename_i hlen
        injection h with h1
        refine ⟨pre, _, (parseDOIAt_goodPre hp).1, ?_, h1.symm⟩
        intro hnil
        rw [hnil] at hlen
        simp at hlen
      · exact ih m h
    · exact ih m h

theorem findDoiOrgLink_spec : ∀ l : List Char, ∀ m : String,
    findDoiOrgLink l = some m →
    ∃ pre tail, GoodPre pre ∧ tail ≠ [] ∧ m = ⟨pre ++ tail⟩ := by
  intro l
  induction l with
  | nil => intro m h; simp [findDoiOrgLink] at h
  | cons c cs ih =>
    intro m h
    rw [findDoiOrgLink] at h
    split at h
    · split at h
      · rename_i pre rest hp
        split at h
        · rename_i hlen
          injection h with h1
          refine ⟨pre, _, (parseDOIAt_goodPre hp).1, ?_, h1.symm⟩
          intro hnil
          rw [hnil] at hlen
          simp at hlen
        · exact ih m h
      · exact ih m h
    · exact ih m h

theorem labeledAfter_spec : ∀ l : List Char, ∀ m : String,
    labeledAfter l = some m →
    ∃ pre tail, GoodPre pre ∧ tail ≠ [] ∧ m = ⟨pre ++ tail⟩ := by
  intro l
  induction l with
  | nil => intro m h; simp [labeledAfter] at h
  | cons c cs ih =>
    intro m h
    rw [labeledAfter] at h
    split at h
    · split at h
      · rename_i pre rest hp
        split at h
        · rename_i hlen
          injection h with h1
          refine ⟨pre, _, (parseDOIAt_goodPre hp).1, ?_, h1.symm⟩
          intro hnil
          rw [hnil] at hlen
          simp at hlen
        · exact ih m h
      · exact ih m h
    · simp at h

theorem findLabeledDOIAux_spec : ∀ l : List Char, ∀ b : Bool, ∀ m : String,
    findLabeledDOIAux b l = some m →
    ∃ pre tail, GoodPre pre ∧ tail ≠ [] ∧ m = ⟨pre ++ tail⟩ := by
  intro l
  induction l with
  | nil => intro b m h; simp [findLabeledDOIAux] at h
  | cons c cs ih =>
    intro b m h
    rw [findLabeledDOIAux] at h
    split at h
    · split at h
      · rename_i d hla
        injection h with h1
        subst h1
        exact labeledAfter_spec _ d hla
      · exact ih _ m h
    · exact ih _ m h

theorem stripLast_valid {pre tail : List Char} (hpre : GoodPre pre) (htail : tail ≠ [])
    (bad : List Char) : testDOIPattern (stripLast bad ⟨pre ++ tail⟩) = true := by
  unfold stripLast
  have hdata : String.data ⟨pre ++ tail⟩ = pre ++ tail := rfl
  rw [hdata]
  split
  · rename_i c hc
    split
    · have hdl : (pre ++ tail).dropLast = pre ++ tail.dropLast := by
        obtain ⟨x, xs, rfl⟩ := List.exists_cons_of_ne_nil htail
        exact List.dropLast_append_cons
      rw [hdl]
      exact testDOIPattern_mk hpre _
    · exact testDOIPattern_mk hpre _
  · exact testDOIPattern_mk hpre _

theorem metaStrategy_valid {meta : Option String} {d : String}
    (h : metaStrategy meta = some d) : testDOIPattern d = true := by
  unfold metaStrategy at h
  split at h
  · simp at h
  · split at h
    · simp at h
    · split at h
      · rename_i hcond
        injection h with h1
        subst h1
        exact (Bool.and_eq_true _ _ ▸ hcond).2
      · simp at h

theorem jsonLdStrategy_valid : ∀ scripts : List LdData, ∀ d : String,
    jsonLdStrategy scripts = some d → testDOIPattern d = true := by
  intro scripts
  induction scripts with
  | nil => intro d h; simp [jsonLdStrategy] at h
  | cons s ss ih =>
    intro d h
    rw [jsonLdStrategy] at h
    split at h
    · split at h
      · rename_i hcond
        injection h with h1
        subst h1
        exact (Bool.and_eq_true _ _ ▸ hcond).2
      · exact ih d h
    · exact ih d h

theorem elementStrategy_valid : ∀ ts : List String, ∀ d : String,
    elementStrategy ts = some d → testDOIPattern d = true := by
  intro ts
  induction ts with
  | nil => intro d h; simp [elementStrategy] at h
  | cons t rest ih =>
    intro d h
    rw [elementStrategy] at h
    split at h
    · rename_i m hm
      injection h with h1
      subst h1
      obtain ⟨pre, tail, hpre, htail, rfl⟩ := findDOIAnywhere_spec _ m hm
      exact stripLast_valid hpre htail _
    · exact ih d h

theorem linkStrategy_valid : ∀ hs : List String, ∀ d : String,
    linkStrategy hs = some d → testDOIPattern d = true := by
  intro hs
  induction hs with
  | nil => intro d h; simp [linkStrategy] at h
  | cons t rest ih =>
    intro d h
    rw [linkStrategy] at h
    split at h
    · rename_i m hm
      injection h with h1
      subst h1
      obtain ⟨pre, tail, hpre, htail, rfl⟩ := findDoiOrgLink_spec _ m hm
      exact testDOIPattern_mk hpre tail
    · exact ih d h

theorem textStrategy_valid {body : String} {d : String}
    (h : textStrategy body = some d) : testDOIPattern d = true := by
  unfold textStrategy at h
  split at h
  · rename_i m hm
    injection h with h1
    subst h1
    obtain ⟨pre, tail, hpre, htail, rfl⟩ := findLabeledDOIAux_spec _ _ m hm
    exact stripLast_valid hpre htail _
  · simp at h

theorem arxivDoiForm_valid (x : String) :
    testDOIPattern ("10.48550/arXiv." ++ x) = true := by
  have hpre : GoodPre "10.48550/".data :=
    ⟨"48550".data, by decide, by decide, by decide⟩
  have hdata : ("10.48550/arXiv." ++ x).data = "10.48550/".data ++ ("arXiv.".data ++ x.data) := by
    cases x with
    | mk l => rfl
  unfold testDOIPattern
  rw [hdata, parseDOIAt_of_goodPre hpre]
  rfl

theorem arxivStrategy_valid {href : String} {meta : Option String} {d : String}
    (h : arxivStrategy href meta = some d) : testDOIPattern d = true := by
  unfold arxivStrategy at h
  split at h
  · rename_i id hid
    injection h with h1
    subst h1
    exact arxivDoiForm_valid id
  · split at h
    · split at h
      · simp at h
      · injection h with h1
        subst h1
        exact arxivDoiForm_valid _
    · simp at h

/-- C7 (amended): every non-null DOI value returned by the page extractor
extractDOINonDestructive matches the anchored pattern
ten-dot-four-or-more-digits-slash; each strategy either validates its
candidate explicitly or produces a match of that shape, and null is
returned when all strategies exhaust.  The PDF-URL extractor performs no
such validation (see the counterexample). -/
theorem c7_page_extractor_validates (p : PageDom) (d : String)
    (h : extractDOINonDestructive p = some d) : testDOIPattern d = true := by
  unfold extractDOINonDestructive at h
  split at h
  · rename_i h1
    injection h with h2
    subst h2
    exact metaStrategy_valid h1
  · split at h
    · rename_i h1
      injection h with h2
      subst h2
      exact jsonLdStrategy_valid _ _ h1
    · split at h
      · rename_i h1
        injection h with h2
        subst h2
        exact metaStrategy_valid h1
      · split at h
        · rename_i h1
          injection h with h2
          subst h2
          exact elementStrategy_valid _ _ h1
        · split at h
          · rename_i h1
            injection h with h2
            subst h2
            exact linkStrategy_valid _ _ h1
          · split at h
            · rename_i h1
              injection h with h2
              subst h2
              exact textStrategy_valid h1
            · exact arxivStrategy_valid h

/-- C7 witness: a concrete page whose citation meta tag holds a DOI. -/
theorem c7_page_extractor_validates_witness :
    extractDOINonDestructive { citationMeta := some "10.1234/abc" } = some "10.1234/abc" ∧
    testDOIPattern "10.1234/abc" = true :=
  ⟨by decide, c7_page_extractor_validates { citationMeta := some "10.1234/abc" } "10.1234/abc" (by decide)⟩

/-- C7 counterexample: the doi query parameter strategy of
extractDOIFromPDFUrl returns its value without validating it against the
anchored DOI pattern. -/
theorem c7_pdf_extractor_unvalidated_counterexample :
    extractDOIFromPDFUrl (some "https://example.com/paper?doi=abc") = some "abc" ∧
    testDOIPattern "abc" = false := by
  constructor
  · decide
  · decide

/-- C8: on the arXiv PDF URL the first two path patterns do not fire and
the extractor returns the synthetic DOI built from the arXiv
identifier. -/
theorem c8_arxiv_pdf_url :
    extractDOIFromPDFUrl (some "https://arxiv.org/pdf/2301.00001.pdf") =
      some "10.48550/arXiv.2301.00001" ∧
    findP1 "https://arxiv.org/pdf/2301.00001.pdf".data = none ∧
    findP2 "https://arxiv.org/pdf/2301.00001.pdf".data = none := by
  refine ⟨by decide, by decide, by decide⟩

/-- C10: a null or empty DOI argument makes queryUnpaywall return the
fixed no-DOI error record at once, with the storage area untouched and no
registry request issued. -/
theorem c10_falsy_doi_immediate (now : Nat) (net : NetResult) (store : Store) :
    queryUnpaywall none now net store = (noDoiRecord, store, 0) ∧
    queryUnpaywall (some "") now net store = (noDoiRecord, store, 0) := by
  constructor
  · rfl
  · rfl

/-- C3 counterexample: for the DOI doi:10.1234/abc a first successful call
caches the record (under the cleaned key), yet a second call one
millisecond later still issues a registry request, because the cache read
uses the raw DOI as key while the write used the cleaned DOI. -/
theorem c3_cache_key_counterexample :
    (queryUnpaywall (some "doi:10.1234/abc") 1
        (NetResult.http 200 { doi := some "10.1234/abc", is_oa := some true })
        (queryUnpaywall (some "doi:10.1234/abc") 0
          (NetResult.http 200 { doi := some "10.1234/abc", is_oa := some true }) []).2.1).2.2 = 1 ∧
    lookupStore "oa_cache_10.1234/abc"
        (queryUnpaywall (some "doi:10.1234/abc") 0
          (NetResult.http 200 { doi := some "10.1234/abc", is_oa := some true }) []).2.1
      = some ⟨mkRecord { doi := some "10.1234/abc", is_oa := some true }, 0⟩ ∧
    (1 : Nat) < CACHE_DURATION ∧
    ("oa_cache_" ++ "doi:10.1234/abc" : String) ≠ "oa_cache_" ++ cleanDoi "doi:10.1234/abc" := by
  refine ⟨by decide, by decide, by decide, by decide⟩

/-- C3 (amended): for a DOI already in normalized form (equal to its
cleaned form and nonempty) the read key and the write key coincide, so a
second queryUnpaywall call within the validity window returns exactly the
record cached by a first successful call, leaves the storage area
unchanged and issues zero registry requests. -/
theorem c3_amended_normalized_doi_cache_hit (d : String) (body : UnpaywallBody)
    (n1 n2 : Nat) (net2 : NetResult)
    (h1 : d ≠ "") (h2 : cleanDoi d = d) (h3 : n2 - n1 < CACHE_DURATION) :
    queryUnpaywall (some d) n2 net2
        (queryUnpaywall (some d) n1 (NetResult.http 200 body) []).2.1
      = ((queryUnpaywall (some d) n1 (NetResult.http 200 body) []).1,
         (queryUnpaywall (some d) n1 (NetResult.http 200 body) []).2.1, 0) := by
  have htr : truthy (some d) = true := by simp [truthy, h1]
  have hq1 : queryUnpaywall (some d) n1 (NetResult.http 200 body) [] =
      (mkRecord body, [("oa_cache_" ++ d, ⟨mkRecord body, n1⟩)], 1) := by
    unfold queryUnpaywall
    rw [htr]
    simp [jsStr, getCachedOAStatus, lookupStore, h1, h2, cacheOAStatus, insertStore, eraseStore]
  rw [hq1]
  unfold queryUnpaywall
  rw [htr]
  simp [jsStr, getCachedOAStatus, lookupStore, h1, h3]

/-- C3 witness: a concrete normalized DOI, cached at time zero and read
back at time five. -/
theorem c3_amended_normalized_doi_cache_hit_witness :
    ("10.1234/abc" : String) ≠ "" ∧ cleanDoi "10.1234/abc" = "10.1234/abc" ∧
    (5 : Nat) - 0 < CACHE_DURATION ∧
    queryUnpaywall (some "10.1234/abc") 5 NetResult.timeout
        (queryUnpaywall (some "10.1234/abc") 0 (NetResult.http 200 { is_oa := some true }) []).2.1
      = ((queryUnpaywall (some "10.1234/abc") 0 (NetResult.http 200 { is_oa := some true }) []).1,
         (queryUnpaywall (some "10.1234/abc") 0 (NetResult.http 200 { is_oa := some true }) []).2.1, 0) :=
  ⟨by decide, by decide, by decide,
    c3_amended_normalized_doi_cache_hit "10.1234/abc" { is_oa := some true } 0 5
      NetResult.timeout (by decide) (by decide) (by decide)⟩

theorem checkCopyright_eq (db : Databases) (pd : PageData) (now : Nat)
    (net : NetResult) (store : Store) :
    checkCopyright db pd now net store =
      match resolveDomain pd with
      | Except.ok domain => checkCopyrightCore db pd domain now net store
      | Except.error e => (mkErrorDecision e, store, 0) := by
  unfold checkCopyright checkCopyrightTry
  cases resolveDomain pd
  · rfl
  · rfl

theorem resolveDomain_ok {pd : PageData} {d : String}
    (h1 : pd.domain = some d) (h2 : d ≠ "") : resolveDomain pd = Except.ok d := by
  unfold resolveDomain
  rw [h1]
  simp [h2]

/-- C1: a truthy metadata domain matching the whitelist makes
checkCopyright return the terminal whitelist decision (allowed, category
whitelist, confidence high), with the storage area untouched and zero
registry requests, whatever the DOI field, the content type, the clock,
the network and the storage are. -/
theorem c1_whitelist_short_circuit (db : Databases) (pd : PageData) (d : String)
    (now : Nat) (net : NetResult) (store : Store)
    (h1 : pd.domain = some d) (h2 : d ≠ "")
    (h3 : isWhitelisted db.whitelist d = true) :
    checkCopyright db pd now net store = (whitelistDecision, store, 0) := by
  rw [checkCopyright_eq, resolveDomain_ok h1 h2]
  show checkCopyrightCore db pd d now net store = (whitelistDecision, store, 0)
  unfold checkCopyrightCore
  rw [h3]
  rfl

/-- C1 witness: a whitelisted domain carrying a PDF with no DOI. -/
theorem c1_whitelist_short_circuit_witness :
    isWhitelisted ["arxiv.org"] "arxiv.org" = true ∧
    checkCopyright ⟨["arxiv.org"], ["arxiv.org"], []⟩
        { url := some "https://arxiv.org/pdf/2301.00001.pdf", domain := some "arxiv.org",
          doi := none, contentType := some "pdf", isPDF := true }
        0 NetResult.timeout []
      = (whitelistDecision, [], 0) :=
  ⟨by decide,
    c1_whitelist_short_circuit ⟨["arxiv.org"], ["arxiv.org"], []⟩
      { url := some "https://arxiv.org/pdf/2301.00001.pdf", domain := some "arxiv.org",
        doi := none, contentType := some "pdf", isPDF := true }
      "arxiv.org" 0 NetResult.timeout [] rfl (by decide) (by decide)⟩

/-- C2: with a truthy non-whitelisted domain and no DOI left after the
PDF enrichment step, checkCopyright blocks on a blacklisted domain with
the blacklist decision, blocks a PDF with the unknown-pdf decision, and
otherwise allows with the unknown-html decision, whose warning field is
populated. -/
theorem c2_no_doi_paths (db : Databases) (pd : PageData) (d : String)
    (now : Nat) (net : NetResult) (store : Store)
    (h1 : pd.domain = some d) (h2 : d ≠ "")
    (h3 : isWhitelisted db.whitelist d = false)
    (h4 : truthy pd.doi = false)
    (h5 : isPdfOf pd = true → truthy (extractDOIFromPDFUrl pd.url) = false) :
    checkCopyright db pd now net store =
      ((if isBlacklisted db.blacklist d then blacklistDecision
        else if isPdfOf pd then unknownPdfDecision
        else unknownHtmlDecision), store, 0) ∧
    unknownHtmlDecision.warning =
      some "Copyright status could not be verified. Please ensure you have the right to access this content." := by
  refine ⟨?_, rfl⟩
  rw [checkCopyright_eq, resolveDomain_ok h1 h2]
  show checkCopyrightCore db pd d now net store = _
  unfold checkCopyrightCore
  rw [h3]
  have hda : truthy (enrichedDoi pd) = false := by
    unfold enrichedDoi
    cases hp : isPdfOf pd with
    | true => simp [h4, hp, h5 hp]
    | false => simp [h4, hp]
  rw [hda]
  cases hb : isBlacklisted db.blacklist d <;> cases hp2 : isPdfOf pd <;> simp [hb, hp2]

/-- C2 witness: a blacklisted domain serving a PDF whose URL yields no
DOI. -/
theorem c2_no_doi_paths_witness :
    isWhitelisted [] "ieeexplore.ieee.org" = false ∧
    truthy (extractDOIFromPDFUrl (some "https://ieeexplore.ieee.org/document/123.pdf")) = false ∧
    checkCopyright ⟨[], ["ieee.org"], []⟩
        { url := some "https://ieeexplore.ieee.org/document/123.pdf",
          domain := some "ieeexplore.ieee.org", doi := none,
          contentType := some "pdf", isPDF := true }
        0 NetResult.timeout []
      = (blacklistDecision, [], 0) := by
  have h := c2_no_doi_paths ⟨[], ["ieee.org"], []⟩
    { url := some "https://ieeexplore.ieee.org/document/123.pdf",
      domain := some "ieeexplore.ieee.org", doi := none,
      contentType := some "pdf", isPDF := true }
    "ieeexplore.ieee.org" 0 NetResult.timeout [] rfl (by decide) (by decide) (by decide)
    (fun _ => by decide)
  refine ⟨by decide, by decide, ?_⟩
  rw [h.1]
  decide

/-- C9: the decision pipeline never consults the conditional domain set:
two database values agreeing on whitelist and blacklist yield identical
checkCopyright results on every input, a noninterference shape statement
about isConditional. -/
theorem c9_conditional_set_noninterference (w b c1 c2 : List String)
    (pd : PageData) (now : Nat) (net : NetResult) (store : Store) :
    checkCopyright ⟨w, b, c1⟩ pd now net store =
      checkCopyright ⟨w, b, c2⟩ pd now net store := by
  rw [checkCopyright_eq, checkCopyright_eq]
  cases resolveDomain pd
  · rfl
  · rfl

/-- C4: whenever the try body of checkCopyright raises, the function still
returns a terminal decision, namely the error decision, which blocks with
category error and confidence low and never allows. -/
theorem c4_internal_fault_blocks (db : Databases) (pd : PageData) (now : Nat)
    (net : NetResult) (store : Store) (e : String)
    (h : checkCopyrightTry db pd now net store = Except.error e) :
    checkCopyright db pd now net store = (mkErrorDecision e, store, 0) ∧
    (mkErrorDecision e).allowed = false ∧
    (mkErrorDecision e).category = "error" ∧
    (mkErrorDecision e).confidence = "low" := by
  refine ⟨?_, rfl, rfl, rfl⟩
  unfold checkCopyright
  rw [h]

/-- C4 witness: page metadata with no domain and no URL makes the domain
resolution step raise, and the catch block converts this into the blocking
error decision. -/
theorem c4_internal_fault_blocks_witness :
    checkCopyrightTry ⟨[], [], []⟩ {} 0 NetResult.timeout [] = Except.error "Invalid URL" ∧
    checkCopyright ⟨[], [], []⟩ {} 0 NetResult.timeout []
      = (mkErrorDecision "Invalid URL", [], 0) ∧
    (mkErrorDecision "Invalid URL").allowed = false := by
  have h := c4_internal_fault_blocks ⟨[], [], []⟩ {} 0 NetResult.timeout [] "Invalid URL" rfl
  exact ⟨rfl, h.1, h.2.1⟩

/-- The three decision invariants of the data model section: whitelist
decisions allow with high confidence, blacklist decisions block, and an
attached alternative URL differs from the page URL. -/
def decisionInvariantHolds (url : Option String) (d : Decision) : Prop :=
  (d.category = "whitelist" → d.allowed = true ∧ d.confidence = "high") ∧
  (d.category = "blacklist" → d.allowed = false) ∧
  (∀ s, d.oa_url = some s → url ≠ some s)

theorem invHolds_whitelist (u : Option String) :
    decisionInvariantHolds u whitelistDecision := by
  refine ⟨fun _ => ⟨rfl, rfl⟩, fun h => absurd h (by decide), fun s hs => by
    simp [whitelistDecision] at hs⟩

theorem invHolds_blacklist (u : Option String) :
    decisionInvariantHolds u blacklistDecision := by
  refine ⟨fun h => absurd h (by decide), fun _ => rfl, fun s hs => by
    simp [blacklistDecision] at hs⟩

theorem invHolds_unknownPdf (u : Option String) :
    decisionInvariantHolds u unknownPdfDecision := by
  refine ⟨fun h => absurd h (by decide), fun h => absurd h (by decide), fun s hs => by
    simp [unknownPdfDecision] at hs⟩

theorem invHolds_unknownHtml (u : Option String) :
    decisionInvariantHolds u unknownHtmlDecision := by
  refine ⟨fun h => absurd h (by decide), fun h => absurd h (by decide), fun s hs => by
    simp [unknownHtmlDecision] at hs⟩

theorem invHolds_verificationFailed (u : Option String) (err : Option String) :
    decisionInvariantHolds u (verificationFailedDecision err) := by
  refine ⟨fun h => absurd h (by simp [verificationFailedDecision]),
    fun h => absurd h (by simp [verificationFailedDecision]), fun s hs => by
    simp [verificationFailedDecision] at hs⟩

theorem invHolds_paywalled (u : Option String) (doi1 : Option String) (oa : OARecord) :
    decisionInvariantHolds u (paywalledDecision doi1 oa) := by
  refine ⟨fun h => absurd h (by simp [paywalledDecision]),
    fun h => absurd h (by simp [paywalledDecision]), fun s hs => by
    simp [paywalledDecision] at hs⟩

theorem invHolds_error (u : Option String) (e : String) :
    decisionInvariantHolds u (mkErrorDecision e) := by
  refine ⟨fun h => absurd h (by simp [mkErrorDecision]),
    fun h => absurd h (by simp [mkErrorDecision]), fun s hs => by
    simp [mkErrorDecision] at hs⟩

theorem invHolds_oaVerified (u doi1 : Option String) (oa : OARecord) :
    decisionInvariantHolds u (oaVerifiedDecision u doi1 oa) := by
  unfold oaVerifiedDecision
  split
  · rename_i hcond
    refine ⟨fun h => absurd h (by simp [oaVerifiedBase]), fun h => absurd h (by simp [oaVerifiedBase]), ?_⟩
    intro s hs heq
    apply hcond.2
    have : oa.oa_url = some s := hs
    rw [this, heq]
  · refine ⟨fun h => absurd h (by simp [oaVerifiedBase]), fun h => absurd h (by simp [oaVerifiedBase]), ?_⟩
    intro s hs
    simp [oaVerifiedBase] at hs

theorem invHolds_afterQuery (pd : PageData) (doi1 : Option String)
    (q : OARecord × Store × Nat) :
    decisionInvariantHolds pd.url (checkAfterQuery pd doi1 q).1 := by
  unfold checkAfterQuery
  split
  · exact invHolds_verificationFailed _ _
  · split
    · exact invHolds_oaVerified _ _ _
    · exact invHolds_paywalled _ _ _

/-- C5: every decision checkCopyright returns satisfies the three
invariants: category whitelist forces allowed and high confidence,
category blacklist forces blocked, and an attached alternative open
access URL always differs from the page URL. -/
theorem c5_decision_invariants (db : Databases) (pd : PageData) (now : Nat)
    (net : NetResult) (store : Store) :
    decisionInvariantHolds pd.url (checkCopyright db pd now net store).1 := by
  rw [checkCopyright_eq]
  cases hr : resolveDomain pd with
  | error e => exact invHolds_error pd.url e
  | ok dom =>
    show decisionInvariantHolds pd.url (checkCopyrightCore db pd dom now net store).1
    unfold checkCopyrightCore
    split
    · exact invHolds_whitelist _
    · split
      · split
        · exact invHolds_blacklist _
        · split
          · exact invHolds_unknownPdf _
          · exact invHolds_unknownHtml _
      · exact invHolds_afterQuery _ _ _

/-- Absence or staleness of a cache entry at a key: the state in which a
queryUnpaywall call reaches the network. -/
def cacheMissAt (key : String) (now : Nat) (store : Store) : Bool :=
  match lookupStore key store with
  | none => true
  | some e => if now - e.timestamp < CACHE_DURATION then false else true

theorem lookupStore_eraseStore (k : String) : ∀ s : Store,
    lookupStore k (eraseStore k s) = none := by
  intro s
  induction s with
  | nil => rfl
  | cons p rest ih =>
    by_cases hp : p.1 = k
    · simp [eraseStore, hp] at ih ⊢
      exact ih
    · simp [eraseStore, hp] at ih ⊢
      rw [lookupStore]
      simp [hp]
      exact ih

theorem queryUnpaywall_timeout (doi : String) (now : Nat) (store : Store)
    (h1 : doi ≠ "") (h2 : cacheMissAt ("oa_cache_" ++ doi) now store = true) :
    (queryUnpaywall (some doi) now NetResult.timeout store).1 = timeoutRecord ∧
    (queryUnpaywall (some doi) now NetResult.timeout store).2.2 = 1 ∧
    lookupStore ("oa_cache_" ++ doi)
      (queryUnpaywall (some doi) now NetResult.timeout store).2.1 = none := by
  have htr : truthy (some doi) = true := by simp [truthy, h1]
  unfold queryUnpaywall
  rw [htr]
  unfold cacheMissAt at h2
  unfold getCachedOAStatus
  simp only [jsStr, h1, if_neg, Bool.not_true, Bool.false_eq_true, if_false]
  cases hl : lookupStore ("oa_cache_" ++ doi) store with
  | none => simp [hl]
  | some e =>
    rw [hl] at h2
    have hexp : ¬(now - e.timestamp < CACHE_DURATION) := by
      by_contra hc
      simp [hc] at h2
    simp [hl, hexp, lookupStore_eraseStore]

/-- C6: with a truthy non-whitelisted domain and a truthy metadata DOI
that is not validly cached, a registry timeout makes queryUnpaywall return
the timeout record while leaving no cache entry under the key of that DOI,
and checkCopyright consequently blocks with category verification_failed
and confidence low. -/
theorem c6_timeout_not_cached (db : Databases) (pd : PageData) (d doi : String)
    (now : Nat) (store : Store)
    (h1 : pd.domain = some d) (h2 : d ≠ "")
    (h3 : isWhitelisted db.whitelist d = false)
    (h4 : pd.doi = some doi) (h5 : doi ≠ "")
    (h6 : cacheMissAt ("oa_cache_" ++ doi) now store = true) :
    (queryUnpaywall (some doi) now NetResult.timeout store).1 = timeoutRecord ∧
    lookupStore ("oa_cache_" ++ doi)
      (queryUnpaywall (some doi) now NetResult.timeout store).2.1 = none ∧
    (checkCopyright db pd now NetResult.timeout store).1 =
      verificationFailedDecision (some "Unpaywall API timeout") ∧
    (checkCopyright db pd now NetResult.timeout store).1.allowed = false ∧
    (checkCopyright db pd now NetResult.timeout store).1.category = "verification_failed" ∧
    (checkCopyright db pd now NetResult.timeout store).1.confidence = "low" ∧
    lookupStore ("oa_cache_" ++ doi)
      (checkCopyright db pd now NetResult.timeout store).2.1 = none := by
  obtain ⟨hq1, hq2, hq3⟩ := queryUnpaywall_timeout doi now store h5 h6
  have hdoi : enrichedDoi pd = some doi := by
    unfold enrichedDoi
    rw [h4]
    simp [truthy, h5]
  have htr : truthy (enrichedDoi pd) = true := by rw [hdoi]; simp [truthy, h5]
  have hcc : checkCopyright db pd now NetResult.timeout store =
      (verificationFailedDecision (some "Unpaywall API timeout"),
       (queryUnpaywall (some doi) now NetResult.timeout store).2.1,
       (queryUnpaywall (some doi) now NetResult.timeout store).2.2) := by
    rw [checkCopyright_eq, resolveDomain_ok h1 h2]
    show checkCopyrightCore db pd d now NetResult.timeout store = _
    unfold checkCopyrightCore
    rw [h3, htr, hdoi]
    unfold checkAfterQuery
    rw [hq1]
    simp [timeoutRecord, truthy]
  refine ⟨hq1, hq3, ?_, ?_, ?_, ?_, ?_⟩
  · rw [hcc]
  · rw [hcc]; rfl
  · rw [hcc]; rfl
  · rw [hcc]; rfl
  · rw [hcc]
    exact hq3

/-- C6 witness: an unknown domain with a valid DOI, an empty cache and a
timing-out registry. -/
theorem c6_timeout_not_cached_witness :
    cacheMissAt "oa_cache_10.1234/abc" 0 [] = true ∧
    (checkCopyright ⟨[], [], []⟩
        { url := some "https://x.com/a", domain := some "x.com",
          doi := some "10.1234/abc" } 0 NetResult.timeout []).1.category
      = "verification_failed" ∧
    lookupStore "oa_cache_10.1234/abc"
      (checkCopyright ⟨[], [], []⟩
        { url := some "https://x.com/a", domain := some "x.com",
          doi := some "10.1234/abc" } 0 NetResult.timeout []).2.1 = none := by
  have h := c6_timeout_not_cached ⟨[], [], []⟩
    { url := some "https://x.com/a", domain := some "x.com", doi := some "10.1234/abc" }
    "x.com" "10.1234/abc" 0 [] rfl (by decide) (by decide) rfl (by decide) (by decide)
  exact ⟨by decide, h.2.2.2.2.1, h.2.2.2.2.2.2⟩
